import Mathlib

/-!
Verification development for the USPTO bulk-file processor's multi-dialect
patent-record extraction engine (src/converters.ts).

The three dialect entry points are shallowly embedded:
* `convertUsptoVersion4XmlDataToJs`  — current Red Book XML (dialect A),
* `convertUsptoVersion2XmlDataToJs`  — older PATDOC XML (dialect B),
* `convertUsptoPftapsDataToJs`       — legacy fixed-field text (dialect C).

JavaScript runtime values reachable in this code are modelled by `JSVal`
(undefined / null / string / array / object); property and index access
follow JavaScript semantics (access on undefined or null raises a
TypeError, modelled as `Except.error`; a missing key yields `vUndefined`).
The xml2js structural parse of one XML record section is an effectful
string-to-tree step; it is taken as an explicit function parameter
`parse : String → Except Unit JSVal` of the two XML converters (rejection
of the parse promise, which the source does not catch, is the `error`
case).  All string scanning (`String.prototype.split`, the section match
regexes, `trim`, the claim-line regexes) is reimplemented character by
character from the source's literal patterns, fuel-based so every
definition reduces inside the kernel.
-/

/-- Model of the JavaScript values flowing through the converters. -/
inductive JSVal where
  | vUndefined
  | vNull
  | vStr (s : String)
  | vArr (xs : List JSVal)
  | vObj (fs : List (String × JSVal))

/-- JavaScript property access `v[k]` for a string key: throws (TypeError)
on undefined/null, looks the key up on objects (missing key gives
undefined), and yields undefined for the named keys the converters read
off strings and arrays (none of which exist there). -/
def getProp : JSVal → String → Except Unit JSVal
  | .vUndefined, _ => .error ()
  | .vNull, _ => .error ()
  | .vStr _, _ => .ok .vUndefined
  | .vArr _, _ => .ok .vUndefined
  | .vObj fs, k =>
      .ok (match fs.find? (fun kv => kv.1 == k) with
           | some kv => kv.2
           | none => .vUndefined)

/-- JavaScript index access `v[i]` for a numeric key: throws on
undefined/null, indexes arrays (out of range gives undefined), indexes
strings by character, and on plain objects looks up the decimal string
key. -/
def getIdx : JSVal → Nat → Except Unit JSVal
  | .vUndefined, _ => .error ()
  | .vNull, _ => .error ()
  | .vStr s, i =>
      .ok (match s.data[i]? with
           | some c => .vStr (String.singleton c)
           | none => .vUndefined)
  | .vArr xs, i => .ok (xs.getD i .vUndefined)
  | .vObj fs, i =>
      .ok (match fs.find? (fun kv => kv.1 == toString i) with
           | some kv => kv.2
           | none => .vUndefined)

/-- One step of a chained JavaScript member access: `.prop k` is `x[k]`
with a string key, `.idx i` is `x[i]` with a numeric key. -/
inductive JStep where
  | prop (k : String)
  | idx (i : Nat)

/-- A chained member access `x[k1][i1]...` exactly as written in the
source; the first failing step raises, as in JavaScript. -/
def jsPath : JSVal → List JStep → Except Unit JSVal
  | v, [] => .ok v
  | v, .prop k :: ps =>
      match getProp v k with
      | .error e => .error e
      | .ok w => jsPath w ps
  | v, .idx i :: ps =>
      match getIdx v i with
      | .error e => .error e
      | .ok w => jsPath w ps

/-- Effectful map over a list, left to right, stopping at the first
error — the shape of both an `Array.prototype.map` whose callback can
throw and of a record-by-record conversion loop. -/
def mapME (f : α → Except Unit β) : List α → Except Unit (List β)
  | [] => .ok []
  | a :: as =>
      match f a with
      | .error e => .error e
      | .ok b =>
          match mapME f as with
          | .error e => .error e
          | .ok bs => .ok (b :: bs)

/-- JavaScript `v.map(f)`: only arrays have a callable `map`; calling it
on undefined, null, a string or a plain object throws a TypeError. -/
def jsMapArr : JSVal → (JSVal → Except Unit JSVal) → Except Unit JSVal
  | .vArr xs, f => (mapME f xs).map JSVal.vArr
  | _, _ => .error ()

/-- The per-field `try { x = lookup } catch (e) { x = null }` pattern used
for every field of every dialect: a raised lookup collapses to null. -/
def tryCatchNull : Except Unit JSVal → JSVal
  | .ok v => v
  | .error _ => .vNull

/-- Whether an effectful lookup succeeded. -/
def exOk : Except Unit JSVal → Bool
  | .ok _ => true
  | .error _ => false

/-- JavaScript strict comparison `v === null`. -/
def isNullB : JSVal → Bool
  | .vNull => true
  | _ => false

/-- One character of a JSON string body, escaped as `JSON.stringify`
escapes it (the characters that occur in this data). -/
def jsonQuoteChar (c : Char) : String :=
  if c = '"' then "\\\""
  else if c = '\\' then "\\\\"
  else if c = '\n' then "\\n"
  else if c = '\r' then "\\r"
  else if c = '\t' then "\\t"
  else String.singleton c

/-- A JSON string literal for `s`, in `JSON.stringify` style. -/
def jsonQuote (s : String) : String :=
  "\"" ++ String.join (s.data.map jsonQuoteChar) ++ "\""

/-- Comma-joined list body, as `JSON.stringify` renders array and object
members (no spaces). -/
def commaJoin : List String → String
  | [] => ""
  | [x] => x
  | x :: xs => x ++ "," ++ commaJoin xs

/-- Fuel-based core of `JSON.stringify`: `none` is JavaScript's
undefined result (undefined input), `some s` the produced JSON text.
Undefined array members render as null; undefined object members are
dropped.  Fuel at least the value's size always suffices. -/
def jsonStrF : Nat → JSVal → Option String
  | _, .vUndefined => none
  | _, .vNull => some "null"
  | _, .vStr s => some (jsonQuote s)
  | Nat.succ f, .vArr xs =>
      some ("[" ++ commaJoin (xs.map (fun v => (jsonStrF f v).getD "null")) ++ "]")
  | Nat.succ f, .vObj fs =>
      some ("\x7b" ++
        commaJoin (fs.filterMap
          (fun kv => (jsonStrF f kv.2).map (fun body => jsonQuote kv.1 ++ ":" ++ body))) ++
        "\x7d")
  | 0, _ => none

/-- Nesting-depth budget for `jsonStringify`.  The fuel argument of
`jsonStrF` is spent once per level of array/object nesting, so any fuel
strictly above the value's nesting depth is exact; values in this
program are a handful of levels deep. -/
def jsonDepthFuel : Nat := 2 ^ 20

/-- `JSON.stringify(v)` as a JavaScript value: a string, or undefined
when stringify yields no output. -/
def jsonStringify (v : JSVal) : JSVal :=
  match jsonStrF jsonDepthFuel v with
  | some s => .vStr s
  | none => .vUndefined

/-- The twelve runtime fields every converter assigns onto its
`processedPatentData` object, in assignment order.  The same shape holds
the schema form, where `patentClaims` has been serialized. -/
structure PatentData where
  applicationNumber : JSVal
  type : JSVal
  language : JSVal
  country : JSVal
  dateProduced : JSVal
  datePublished : JSVal
  dtdVersion : JSVal
  fileName : JSVal
  patentStatus : JSVal
  patentClaims : JSVal
  inventionTitle : JSVal
  inventionId : JSVal

/-- Names of the twelve fields, for stating per-field properties. -/
inductive PField where
  | applicationNumber
  | type
  | language
  | country
  | dateProduced
  | datePublished
  | dtdVersion
  | fileName
  | patentStatus
  | patentClaims
  | inventionTitle
  | inventionId

/-- Field projection by name. -/
def getField (d : PatentData) : PField → JSVal
  | .applicationNumber => d.applicationNumber
  | .type => d.type
  | .language => d.language
  | .country => d.country
  | .dateProduced => d.dateProduced
  | .datePublished => d.datePublished
  | .dtdVersion => d.dtdVersion
  | .fileName => d.fileName
  | .patentStatus => d.patentStatus
  | .patentClaims => d.patentClaims
  | .inventionTitle => d.inventionTitle
  | .inventionId => d.inventionId

/-- `Object.values(processedPatentSchemaData)`: the twelve own-property
values in insertion order (the spread copies all twelve runtime
properties, `type` included, even though the schema interface omits it). -/
def schemaValues (d : PatentData) : List JSVal :=
  [d.applicationNumber, d.type, d.language, d.country, d.dateProduced,
   d.datePublished, d.dtdVersion, d.fileName, d.patentStatus,
   d.patentClaims, d.inventionTitle, d.inventionId]

/-- `Object.values(data).every(value => value === null)` — the guard both
filtering converters test before pushing a record. -/
def allNull (d : PatentData) : Bool :=
  (schemaValues d).all isNullB

/-- `{...typedPatentProcessedData, patentClaims: JSON.stringify(...)}` —
the schema record: identical fields except the serialized claims. -/
def toSchema (d : PatentData) : PatentData :=
  { d with patentClaims := jsonStringify d.patentClaims }

/-- JavaScript regex `\s` on the code points that occur in this data
(ASCII). -/
def jsWhitespace (c : Char) : Bool :=
  c = ' ' || c = '\t' || c = '\n' || c = '\x0b' || c = '\x0c' || c = '\r'

/-- ASCII lower-casing, for the case-insensitive `i` regex flag. -/
def lowerChar (c : Char) : Char :=
  if 'A' ≤ c ∧ c ≤ 'Z' then Char.ofNat (c.toNat + 32) else c

/-- Case-insensitive "pat begins s". -/
def ciStarts : List Char → List Char → Bool
  | [], _ => true
  | _ :: _, [] => false
  | p :: ps, c :: cs => lowerChar p == lowerChar c && ciStarts ps cs

/-- Index of the first case-insensitive occurrence of the (nonempty)
pattern, scanning left to right. -/
def findCIIdx (pat : List Char) : List Char → Option Nat
  | [] => none
  | c :: rest =>
      if ciStarts pat (c :: rest) then some 0
      else (findCIIdx pat rest).map (· + 1)

/-- Attempted match, at the current position, of the record-section
regex shape `[<]TAG\s.*?[<][/]TAG[>]` with flags `gmis`: the opening
literal (case-insensitive), exactly one whitespace (`\s`), a lazy run of
arbitrary characters including newlines (`.` under the `s` flag), then
the first occurrence of the closing literal (case-insensitive).  Returns
the total matched length. -/
def tryMatchLen (op cl s : List Char) : Option Nat :=
  if ciStarts op s then
    match s.drop op.length with
    | [] => none
    | w :: rest2 =>
        if jsWhitespace w then
          match findCIIdx cl rest2 with
          | some k => some (op.length + 1 + k + cl.length)
          | none => none
        else none
  else none

/-- Left-to-right non-overlapping scan for all matches of the section
regex, as `String.prototype.match` with the `g` flag performs it: on a
failed attempt the start position advances one character, on a match it
advances past the match.  Fuel one per character always suffices. -/
def scanSectionsGo : Nat → List Char → List Char → List Char → List (List Char)
  | _, _, _, [] => []
  | 0, _, _, _ => []
  | Nat.succ f, op, cl, c :: rest =>
      match tryMatchLen op cl (c :: rest) with
      | some n => (c :: rest).take n :: scanSectionsGo f op cl ((c :: rest).drop n)
      | none => scanSectionsGo f op cl rest

/-- `xmlData.match(sectionRegex)`: the list of matched record sections,
or — exactly as in JavaScript — no list at all when nothing matches. -/
def jsMatchSections (op cl blob : String) : Option (List String) :=
  match scanSectionsGo blob.data.length op.data cl.data blob.data with
  | [] => none
  | ms => some (ms.map String.mk)

/-- Worker for `String.prototype.split` with a literal (nonempty)
separator: occurrences are found left to right and consumed; fuel one
per character always suffices (each step consumes at least one
character). -/
def jsSplitGo : Nat → List Char → List Char → List (List Char)
  | _, _, [] => [[]]
  | 0, _, s => [s]
  | Nat.succ f, sep, c :: rest =>
      if sep ≠ [] ∧ List.isPrefixOf sep (c :: rest) then
        [] :: jsSplitGo f sep ((c :: rest).drop sep.length)
      else
        match jsSplitGo f sep rest with
        | [] => [[c]]
        | p :: ps => (c :: p) :: ps

/-- `s.split(sep)` for the literal separators the converters use
(`'\r\n'`, `'PATN\r\n'`, field prefixes, `'  '`).  Trailing empty pieces
are kept, as in JavaScript. -/
def jsSplit (sep s : String) : List String :=
  (jsSplitGo s.data.length sep.data s.data).map String.mk

/-- The final element of `s.split(...)` — what `.pop()` retrieves: the
text after the last occurrence of the separator (the whole string when
the separator does not occur). -/
def afterLastSep (sep s : String) : String :=
  (jsSplit sep s).getLastD s

/-- `String.prototype.trim` on the code points that occur in this data
(ASCII whitespace at both ends). -/
def jsTrim (s : String) : String :=
  String.mk (((s.data.dropWhile jsWhitespace).reverse.dropWhile jsWhitespace).reverse)

/-- Indexing `list[i]` on a JavaScript array of strings: the element, or
undefined out of range. -/
def jsAt (xs : List String) (i : Nat) : JSVal :=
  match xs[i]? with
  | some x => .vStr x
  | none => .vUndefined

/-- The record sections of the legacy Pftaps dialect:
`pftapsData.split(/PATN\r\n/gm)` with the first slice (any file header
before the first marker) discarded by `.slice(1)`. -/
def pftapsSections (blob : String) : List String :=
  (jsSplit "PATN\r\n" blob).drop 1

/-- `patentPftapsSection.split('\r\n')` — the record's lines. -/
def pfLines (s : String) : List String :=
  jsSplit "\r\n" s

/-- JavaScript `l.startsWith(pre)`. -/
def jsStartsWith (l pre : String) : Bool :=
  List.isPrefixOf pre.data l.data

/-- The repeated fixed-prefix lookup of the Pftaps field extractor:
`section.split('\r\n').filter(l => l.startsWith(pre))[0].split(pre)[1]`.
When no line bears the prefix, `[0]` is undefined and `.split` on it
throws. -/
def pfTagField (pre s : String) : Except Unit JSVal :=
  match ((pfLines s).filter (fun l => jsStartsWith l pre)).head? with
  | none => .error ()
  | some l => .ok (jsAt (jsSplit pre l) 1)

/-- The Pftaps `type` field:
`section.split('\r\n').some(l => /^DCLM\r\n$/.test(l)) ? 'design' : 'utility'`.
The anchored test accepts exactly the string `"DCLM\r\n"`. -/
def pfType (s : String) : JSVal :=
  if (pfLines s).any (fun l => l == "DCLM\r\n") then .vStr "design" else .vStr "utility"

/-- Test of `/^NUM\s{2}[0-9]{1,}[.]$/`: the letters NUM, exactly two
whitespace characters, one or more digits, a dot, end of string. -/
def isNumMarker (l : String) : Bool :=
  match l.data with
  | 'N' :: 'U' :: 'M' :: a :: b :: rest =>
      jsWhitespace a && jsWhitespace b &&
        (match rest.span Char.isDigit with
         | (ds, tl) => decide (ds ≠ []) && decide (tl = ['.']))
  | _ => false

/-- Test of `/^STM\s{2}/`: the letters STM then two whitespace
characters. -/
def isSTMTag (l : String) : Bool :=
  match l.data with
  | 'S' :: 'T' :: 'M' :: a :: b :: _ => jsWhitespace a && jsWhitespace b
  | _ => false

/-- `line.replace(/(^PAR\s{2}[0-9]{1,}[.])|(^(PA1|PAR|PAL)\s{2})/, '')`:
the first alternative strips a numbered paragraph marker `PAR␣␣n.`; when
it cannot match, the second strips a bare `PA1`/`PAR`/`PAL` marker with
its two whitespace characters; otherwise the line is unchanged. -/
def stripParaTag (l : String) : String :=
  match l.data with
  | 'P' :: 'A' :: 'R' :: a :: b :: rest =>
      if jsWhitespace a && jsWhitespace b then
        match rest.span Char.isDigit with
        | (ds, '.' :: rest2) => if ds ≠ [] then String.mk rest2 else String.mk rest
        | _ => String.mk rest
      else l
  | 'P' :: 'A' :: c :: a :: b :: rest =>
      if (c = '1' ∨ c = 'L') ∧ jsWhitespace a && jsWhitespace b then String.mk rest else l
  | _ => l

/-- The claim-assembly loop of the Pftaps converter, over the claim
section's lines.  `total` is `claimLines.length` of the whole section
(the source tests it against 1 inside the loop); the state is the
emitted claims, the tracked claim number (never output) and the
accumulated text.  A claim-number line whose two-whitespace gap is not
two literal spaces makes `split('  ')[1]` undefined and `.trim()` on it
throw, failing the whole claims field.  Note the loop emits accumulated
text only on a later claim-number line (or in the single-line special
case) — nothing is flushed when the lines run out. -/
def pfClaimsLoop (total : Nat) : List String → List String → String → String → Except Unit (List String)
  | [], data, _, _ => .ok data
  | l :: rest, data, num, acc =>
      if isNumMarker l then
        match (jsSplit "  " l)[1]? with
        | none => .error ()
        | some x =>
            pfClaimsLoop total rest (if acc ≠ "" then data ++ [acc] else data) (jsTrim x) ""
      else if isSTMTag l then
        pfClaimsLoop total rest data num acc
      else
        let acc2 := acc ++ jsTrim (stripParaTag l) ++ " "
        pfClaimsLoop total rest (if total = 1 then data ++ [acc2] else data) num acc2

/-- The Pftaps `patentClaims` field: the text after the last
`CLMS`/`DCLM` section marker (`split(/(CLMS|DCLM)\r\n/gm).pop()` — with
the capture group the popped element is still the text after the last
match), trimmed, split into lines, folded through the claim-assembly
loop, each claim trimmed. -/
def pfClaimsE (s : String) : Except Unit JSVal :=
  let tl := jsTrim (afterLastSep "DCLM\r\n" (afterLastSep "CLMS\r\n" s))
  let claimLines := pfLines tl
  match pfClaimsLoop claimLines.length claimLines [] "1." "" with
  | .error e => .error e
  | .ok data => .ok (JSVal.vArr ((data.map jsTrim).map JSVal.vStr))

/-- The Pftaps field extractor: every field from its own lookup, each
wrapped in the try/catch-to-null pattern of the source (the fields the
source assigns from expressions that cannot throw are written
directly). -/
def pfFields (fn : JSVal) (s : String) : PatentData :=
  { applicationNumber := tryCatchNull (pfTagField "PNO  " s)
  , type := pfType s
  , language := JSVal.vNull
  , country := JSVal.vNull
  , dateProduced := tryCatchNull (pfTagField "APD  " s)
  , datePublished := tryCatchNull (pfTagField "ISD  " s)
  , dtdVersion := JSVal.vNull
  , fileName := fn
  , patentStatus := JSVal.vNull
  , patentClaims := tryCatchNull (pfClaimsE s)
  , inventionTitle := tryCatchNull (pfTagField "TTL  " s)
  , inventionId := tryCatchNull (pfTagField "ISD  " s) }

/-- The raw per-field lookup of the Pftaps extractor, before the
catch-to-null step (total assignments are `ok`). -/
def pfLookup (fn : JSVal) (s : String) : PField → Except Unit JSVal
  | .applicationNumber => pfTagField "PNO  " s
  | .type => .ok (pfType s)
  | .language => .ok .vNull
  | .country => .ok .vNull
  | .dateProduced => pfTagField "APD  " s
  | .datePublished => pfTagField "ISD  " s
  | .dtdVersion => .ok .vNull
  | .fileName => .ok fn
  | .patentStatus => .ok .vNull
  | .patentClaims => pfClaimsE s
  | .inventionTitle => pfTagField "TTL  " s
  | .inventionId => pfTagField "ISD  " s

/-- One loop iteration's decision for a Pftaps section: build the schema
record and keep it unless every own-property value is strictly null. -/
def pfEmit (fn : JSVal) (s : String) : Option PatentData :=
  if allNull (toSchema (pfFields fn s)) then none else some (toSchema (pfFields fn s))

/-- The Pftaps conversion loop: sections in order, each appended to the
accumulated output when kept. -/
def pfLoop (fn : JSVal) : List String → List PatentData → List PatentData
  | [], acc => acc
  | s :: ss, acc => pfLoop fn ss (acc ++ (pfEmit fn s).toList)

/-- `convertUsptoPftapsDataToJs(pftapsData, pftapsFileName)`.  The file
name defaults to null at the call sites modelled here. -/
def convertUsptoPftapsDataToJs (fn : JSVal) (blob : String) : List PatentData :=
  pfLoop fn (pftapsSections blob) []

/-- The claims lookup of the Version 4 extractor:
`parsed['us-patent-grant']['claims'][0]['claim'].map(c => c['claim-text'][0])`. -/
def v4ClaimsE (t : JSVal) : Except Unit JSVal :=
  match jsPath t [.prop "us-patent-grant", .prop "claims", .idx 0, .prop "claim"] with
  | .error e => .error e
  | .ok c => jsMapArr c (fun cl => jsPath cl [.prop "claim-text", .idx 0])

/-- The Version 4 field extractor: each field from the source's chained
member access, wrapped in try/catch-to-null. -/
def v4Fields (t : JSVal) : PatentData :=
  { applicationNumber := tryCatchNull (jsPath t
      [.prop "us-patent-grant", .prop "us-bibliographic-data-grant", .idx 0,
       .prop "publication-reference", .idx 0, .prop "document-id", .idx 0,
       .prop "doc-number", .idx 0])
  , type := tryCatchNull (jsPath t
      [.prop "us-patent-grant", .prop "us-bibliographic-data-grant", .idx 0,
       .prop "application-reference", .idx 0, .prop "$", .prop "appl-type"])
  , language := tryCatchNull (jsPath t [.prop "us-patent-grant", .prop "$", .prop "lang"])
  , country := tryCatchNull (jsPath t [.prop "us-patent-grant", .prop "$", .prop "country"])
  , dateProduced := tryCatchNull (jsPath t [.prop "us-patent-grant", .prop "$", .prop "date-produced"])
  , datePublished := tryCatchNull (jsPath t [.prop "us-patent-grant", .prop "$", .prop "date-publ"])
  , dtdVersion := tryCatchNull (jsPath t [.prop "us-patent-grant", .prop "$", .prop "dtd-version"])
  , fileName := tryCatchNull (jsPath t [.prop "us-patent-grant", .prop "$", .prop "file"])
  , patentStatus := tryCatchNull (jsPath t [.prop "us-patent-grant", .prop "$", .prop "status"])
  , patentClaims := tryCatchNull (v4ClaimsE t)
  , inventionTitle := tryCatchNull (jsPath t
      [.prop "us-patent-grant", .prop "us-bibliographic-data-grant", .idx 0,
       .prop "invention-title", .idx 0, .prop "_"])
  , inventionId := tryCatchNull (jsPath t
      [.prop "us-patent-grant", .prop "us-bibliographic-data-grant", .idx 0,
       .prop "invention-title", .idx 0, .prop "$", .prop "id"]) }

/-- The raw per-field lookup of the Version 4 extractor, before the
catch-to-null step. -/
def v4Lookup (t : JSVal) : PField → Except Unit JSVal
  | .applicationNumber => jsPath t
      [.prop "us-patent-grant", .prop "us-bibliographic-data-grant", .idx 0,
       .prop "publication-reference", .idx 0, .prop "document-id", .idx 0,
       .prop "doc-number", .idx 0]
  | .type => jsPath t
      [.prop "us-patent-grant", .prop "us-bibliographic-data-grant", .idx 0,
       .prop "application-reference", .idx 0, .prop "$", .prop "appl-type"]
  | .language => jsPath t [.prop "us-patent-grant", .prop "$", .prop "lang"]
  | .country => jsPath t [.prop "us-patent-grant", .prop "$", .prop "country"]
  | .dateProduced => jsPath t [.prop "us-patent-grant", .prop "$", .prop "date-produced"]
  | .datePublished => jsPath t [.prop "us-patent-grant", .prop "$", .prop "date-publ"]
  | .dtdVersion => jsPath t [.prop "us-patent-grant", .prop "$", .prop "dtd-version"]
  | .fileName => jsPath t [.prop "us-patent-grant", .prop "$", .prop "file"]
  | .patentStatus => jsPath t [.prop "us-patent-grant", .prop "$", .prop "status"]
  | .patentClaims => v4ClaimsE t
  | .inventionTitle => jsPath t
      [.prop "us-patent-grant", .prop "us-bibliographic-data-grant", .idx 0,
       .prop "invention-title", .idx 0, .prop "_"]
  | .inventionId => jsPath t
      [.prop "us-patent-grant", .prop "us-bibliographic-data-grant", .idx 0,
       .prop "invention-title", .idx 0, .prop "$", .prop "id"]

/-- `xmlData.match(/[<]us-patent-grant\s.*?[<][/]us-patent-grant[>]/gmis)`. -/
def v4SectionsM (blob : String) : Option (List String) :=
  jsMatchSections "<us-patent-grant" "</us-patent-grant>" blob

/-- The Version 4 conversion loop: parse each section (an uncaught
rejection aborts the whole pass), extract, serialize, push — with no
all-null filtering in this dialect. -/
def v4Loop (parse : String → Except Unit JSVal) :
    List String → List PatentData → Except Unit (List PatentData)
  | [], acc => .ok acc
  | s :: ss, acc =>
      match parse s with
      | .error e => .error e
      | .ok t => v4Loop parse ss (acc ++ [toSchema (v4Fields t)])

/-- `convertUsptoVersion4XmlDataToJs(xmlData)`.  When the section match
yields no list, the `for...of` over null throws, so the whole call
fails. -/
def convertUsptoVersion4XmlDataToJs (parse : String → Except Unit JSVal)
    (blob : String) : Except Unit (List PatentData) :=
  match v4SectionsM blob with
  | none => .error ()
  | some secs => v4Loop parse secs []

/-- The claims lookup of the Version 2 extractor:
`parsed['PATDOC']['SDOCL'][0]['CL'].map(c => c['CLM'][0]['PARA'][0]['PTEXT'][0]['PDAT'][0])`. -/
def v2ClaimsE (t : JSVal) : Except Unit JSVal :=
  match jsPath t [.prop "PATDOC", .prop "SDOCL", .idx 0, .prop "CL"] with
  | .error e => .error e
  | .ok c => jsMapArr c (fun cl => jsPath cl
      [.prop "CLM", .idx 0, .prop "PARA", .idx 0, .prop "PTEXT", .idx 0, .prop "PDAT", .idx 0])

/-- The Version 2 field extractor.  `type` and `language` are assigned
null outright; `fileName` is the caller-supplied argument; note that
`inventionId` reads the very same chained path as `inventionTitle`. -/
def v2Fields (fn t : JSVal) : PatentData :=
  { applicationNumber := tryCatchNull (jsPath t
      [.prop "PATDOC", .prop "SDOBI", .idx 0, .prop "B100", .idx 0, .prop "B110", .idx 0,
       .prop "DNUM", .idx 0, .prop "PDAT", .idx 0])
  , type := JSVal.vNull
  , language := JSVal.vNull
  , country := tryCatchNull (jsPath t
      [.prop "PATDOC", .prop "SDOBI", .idx 0, .prop "B100", .idx 0, .prop "B190", .idx 0,
       .prop "PDAT", .idx 0])
  , dateProduced := tryCatchNull (jsPath t
      [.prop "PATDOC", .prop "SDOBI", .idx 0, .prop "B100", .idx 0, .prop "B140", .idx 0,
       .prop "DATE", .idx 0, .prop "PDAT", .idx 0])
  , datePublished := tryCatchNull (jsPath t
      [.prop "PATDOC", .prop "SDOBI", .idx 0, .prop "B200", .idx 0, .prop "B220", .idx 0,
       .prop "DATE", .idx 0, .prop "PDAT", .idx 0])
  , dtdVersion := tryCatchNull (jsPath t [.prop "PATDOC", .prop "$", .prop "DTD"])
  , fileName := fn
  , patentStatus := tryCatchNull (jsPath t [.prop "PATDOC", .prop "$", .prop "STATUS"])
  , patentClaims := tryCatchNull (v2ClaimsE t)
  , inventionTitle := tryCatchNull (jsPath t
      [.prop "PATDOC", .prop "SDOBI", .idx 0, .prop "B500", .idx 0, .prop "B540", .idx 0,
       .prop "STEXT", .idx 0, .prop "PDAT", .idx 0])
  , inventionId := tryCatchNull (jsPath t
      [.prop "PATDOC", .prop "SDOBI", .idx 0, .prop "B500", .idx 0, .prop "B540", .idx 0,
       .prop "STEXT", .idx 0, .prop "PDAT", .idx 0]) }

/-- The raw per-field lookup of the Version 2 extractor, before the
catch-to-null step (the null, constant and caller-supplied assignments
cannot throw and are `ok`). -/
def v2Lookup (fn t : JSVal) : PField → Except Unit JSVal
  | .applicationNumber => jsPath t
      [.prop "PATDOC", .prop "SDOBI", .idx 0, .prop "B100", .idx 0, .prop "B110", .idx 0,
       .prop "DNUM", .idx 0, .prop "PDAT", .idx 0]
  | .type => .ok .vNull
  | .language => .ok .vNull
  | .country => jsPath t
      [.prop "PATDOC", .prop "SDOBI", .idx 0, .prop "B100", .idx 0, .prop "B190", .idx 0,
       .prop "PDAT", .idx 0]
  | .dateProduced => jsPath t
      [.prop "PATDOC", .prop "SDOBI", .idx 0, .prop "B100", .idx 0, .prop "B140", .idx 0,
       .prop "DATE", .idx 0, .prop "PDAT", .idx 0]
  | .datePublished => jsPath t
      [.prop "PATDOC", .prop "SDOBI", .idx 0, .prop "B200", .idx 0, .prop "B220", .idx 0,
       .prop "DATE", .idx 0, .prop "PDAT", .idx 0]
  | .dtdVersion => jsPath t [.prop "PATDOC", .prop "$", .prop "DTD"]
  | .fileName => .ok fn
  | .patentStatus => jsPath t [.prop "PATDOC", .prop "$", .prop "STATUS"]
  | .patentClaims => v2ClaimsE t
  | .inventionTitle => jsPath t
      [.prop "PATDOC", .prop "SDOBI", .idx 0, .prop "B500", .idx 0, .prop "B540", .idx 0,
       .prop "STEXT", .idx 0, .prop "PDAT", .idx 0]
  | .inventionId => jsPath t
      [.prop "PATDOC", .prop "SDOBI", .idx 0, .prop "B500", .idx 0, .prop "B540", .idx 0,
       .prop "STEXT", .idx 0, .prop "PDAT", .idx 0]

/-- One loop iteration's decision for a Version 2 parsed section. -/
def v2Emit (fn t : JSVal) : Option PatentData :=
  if allNull (toSchema (v2Fields fn t)) then none else some (toSchema (v2Fields fn t))

/-- `xmlData.match(/[<]PATDOC\s.*?[<][/]PATDOC[>]/gmis)`. -/
def v2SectionsM (blob : String) : Option (List String) :=
  jsMatchSections "<PATDOC" "</PATDOC>" blob

/-- The Version 2 conversion loop: parse, extract, serialize, and push
unless every own-property value is strictly null. -/
def v2Loop (parse : String → Except Unit JSVal) (fn : JSVal) :
    List String → List PatentData → Except Unit (List PatentData)
  | [], acc => .ok acc
  | s :: ss, acc =>
      match parse s with
      | .error e => .error e
      | .ok t => v2Loop parse fn ss (acc ++ (v2Emit fn t).toList)

/-- `convertUsptoVersion2XmlDataToJs(xmlData, xmlFileName)`.  As in the
Version 4 dialect, a match that yields no list makes the call fail. -/
def convertUsptoVersion2XmlDataToJs (parse : String → Except Unit JSVal)
    (fn : JSVal) (blob : String) : Except Unit (List PatentData) :=
  match v2SectionsM blob with
  | none => .error ()
  | some secs => v2Loop parse fn secs []

/-- Modelled from the spec: the StructuralParser (spec 4.2) — the xml2js
library, a dependency whose code is not under src/ — parses one record
section into a tree whose root key is the root tag name as written and
whose attribute set sits under the reserved key `$`.  For the single
well-formed input this oracle accepts, the documented xml2js output of
`<patdoc x="1"></patdoc>` is the object `\x7b patdoc: \x7b $: \x7b x: '1' \x7d \x7d \x7d`;
every other input is rejected. -/
def patdocOracle : String → Except Unit JSVal := fun s =>
  if s = "<patdoc x=\"1\"></patdoc>" then
    .ok (JSVal.vObj [("patdoc", JSVal.vObj [("$", JSVal.vObj [("x", JSVal.vStr "1")])])])
  else .error ()

/-- One Version 4 loop iteration as an effectful per-section step:
parse, extract, serialize (this dialect keeps every record). -/
def v4EmitE (parse : String → Except Unit JSVal) (s : String) : Except Unit PatentData :=
  match parse s with
  | .error e => .error e
  | .ok t => .ok (toSchema (v4Fields t))

/-- One Version 2 loop iteration as an effectful per-section step:
parse, then decide emission. -/
def v2EmitE (parse : String → Except Unit JSVal) (fn : JSVal) (s : String) :
    Except Unit (Option PatentData) :=
  match parse s with
  | .error e => .error e
  | .ok t => .ok (v2Emit fn t)

theorem pfLoop_eq (fn : JSVal) (ss : List String) : ∀ acc : List PatentData,
    pfLoop fn ss acc = acc ++ ss.filterMap (pfEmit fn) := by
  induction ss with
  | nil => intro acc; simp [pfLoop]
  | cons s ss ih =>
      intro acc
      rw [pfLoop, ih]
      cases h : pfEmit fn s <;>
        simp [h, List.filterMap_cons, Option.toList, List.append_assoc]

theorem filterMap_map_some_sublist (f : α → Option β) (l : List α) :
    List.Sublist ((l.filterMap f).map some) (l.map f) := by
  induction l with
  | nil => simp
  | cons a l ih =>
      cases h : f a with
      | none => simpa [List.filterMap_cons, h] using ih.cons none
      | some b => simpa [List.filterMap_cons, h] using ih.cons₂ (some b)

theorem v4Loop_eq (parse : String → Except Unit JSVal) (ss : List String) :
    ∀ acc : List PatentData,
    v4Loop parse ss acc = Except.map (fun l => acc ++ l) (mapME (v4EmitE parse) ss) := by
  induction ss with
  | nil => intro acc; simp [v4Loop, mapME, Except.map]
  | cons s ss ih =>
      intro acc
      cases hp : parse s with
      | error e => simp [v4Loop, mapME, v4EmitE, hp, Except.map]
      | ok t =>
          have hstep : v4Loop parse (s :: ss) acc
              = v4Loop parse ss (acc ++ [toSchema (v4Fields t)]) := by
            simp [v4Loop, hp]
          rw [hstep, ih]
          cases hm : mapME (v4EmitE parse) ss with
          | error e => simp [mapME, v4EmitE, hp, hm, Except.map]
          | ok bs => simp [mapME, v4EmitE, hp, hm, Except.map]

theorem v2Loop_eq (parse : String → Except Unit JSVal) (fn : JSVal) (ss : List String) :
    ∀ acc : List PatentData,
    v2Loop parse fn ss acc
      = Except.map (fun l => acc ++ List.filterMap id l) (mapME (v2EmitE parse fn) ss) := by
  induction ss with
  | nil => intro acc; simp [v2Loop, mapME, Except.map]
  | cons s ss ih =>
      intro acc
      cases hp : parse s with
      | error e => simp [v2Loop, mapME, v2EmitE, hp, Except.map]
      | ok t =>
          have hstep : v2Loop parse fn (s :: ss) acc
              = v2Loop parse fn ss (acc ++ (v2Emit fn t).toList) := by
            simp [v2Loop, hp]
          rw [hstep, ih]
          cases hm : mapME (v2EmitE parse fn) ss with
          | error e => simp [mapME, v2EmitE, hp, hm, Except.map]
          | ok bs =>
              cases ho : v2Emit fn t <;>
                simp [mapME, v2EmitE, hp, hm, ho, Except.map, List.filterMap_cons,
                      Option.toList]

theorem v4_field_eq (t : JSVal) (f : PField) :
    getField (v4Fields t) f = tryCatchNull (v4Lookup t f) := by
  cases f <;> rfl

theorem v2_field_eq (fn t : JSVal) (f : PField) :
    getField (v2Fields fn t) f = tryCatchNull (v2Lookup fn t f) := by
  cases f <;> rfl

theorem pf_field_eq (fn : JSVal) (s : String) (f : PField) :
    getField (pfFields fn s) f = tryCatchNull (pfLookup fn s f) := by
  cases f <;> rfl

/-- Claim C1: feeding an empty blob to each dialect entry point.  The two
XML converters fail (their section match yields no list — JavaScript's
null — and iterating it throws), only the legacy Pftaps converter
returns an empty sequence. -/
theorem claim1_empty_input_behavior :
    (∀ parse : String → Except Unit JSVal,
        convertUsptoVersion4XmlDataToJs parse "" = Except.error ())
    ∧ (∀ (parse : String → Except Unit JSVal) (fn : JSVal),
        convertUsptoVersion2XmlDataToJs parse fn "" = Except.error ())
    ∧ (∀ fn : JSVal, convertUsptoPftapsDataToJs fn "" = []) :=
  ⟨fun _ => rfl, fun _ _ => rfl, fun _ => rfl⟩

/-- Claim C2: a Version 2 record section all twelve of whose normalized
fields are absent (null) is nevertheless emitted — the every-null cull
runs after `patentClaims` has been serialized to the string "null", so
it never fires. -/
theorem claim2_all_absent_record_emitted :
    convertUsptoVersion2XmlDataToJs patdocOracle JSVal.vNull "<patdoc x=\"1\"></patdoc>"
      = Except.ok [toSchema (v2Fields JSVal.vNull
          (JSVal.vObj [("patdoc", JSVal.vObj [("$", JSVal.vObj [("x", JSVal.vStr "1")])])]))]
    ∧ schemaValues (v2Fields JSVal.vNull
          (JSVal.vObj [("patdoc", JSVal.vObj [("$", JSVal.vObj [("x", JSVal.vStr "1")])])]))
      = List.replicate 12 JSVal.vNull :=
  ⟨rfl, rfl⟩

/-- Claim C3: a legacy claim section with two claim-number markers, each
followed by a text line, yields only the first claim — text accumulated
after the final marker is never flushed when the lines run out. -/
theorem claim3_final_claim_never_flushed :
    (pfFields JSVal.vNull "CLMS\r\nNUM  1.\r\nA\r\nNUM  2.\r\nB\r\n").patentClaims
      = JSVal.vArr [JSVal.vStr "A"]
    ∧ (convertUsptoPftapsDataToJs JSVal.vNull
          "PATN\r\nCLMS\r\nNUM  1.\r\nA\r\nNUM  2.\r\nB\r\n").map
        (fun r => r.patentClaims) = [JSVal.vStr "[\"A\"]"] :=
  ⟨rfl, rfl⟩

/-- Claim C4: the spec's concrete legacy scenario.  Application number,
date produced and title come out as the spec says, but the claims
collection is empty (serialized "[]") — the single claim's text is never
flushed — where the claim requires the one-element sequence
["A widget comprising X."]. -/
theorem claim4_concrete_scenario :
    convertUsptoPftapsDataToJs JSVal.vNull
      "PATN\r\nPNO  12345\r\nAPD  19900101\r\nTTL  A Widget\r\nCLMS\r\nNUM  1.\r\nPA1  A widget comprising X.\r\n"
    = [{ applicationNumber := JSVal.vStr "12345", type := JSVal.vStr "utility",
         language := JSVal.vNull, country := JSVal.vNull,
         dateProduced := JSVal.vStr "19900101", datePublished := JSVal.vNull,
         dtdVersion := JSVal.vNull, fileName := JSVal.vNull, patentStatus := JSVal.vNull,
         patentClaims := JSVal.vStr "[]", inventionTitle := JSVal.vStr "A Widget",
         inventionId := JSVal.vNull }] :=
  rfl

/-- Claim C5: a legacy record whose body contains a DCLM design-claim
marker line still gets type "utility": the test `/^DCLM\r\n$/` is applied
to lines already split on CRLF, which can never contain CRLF. -/
theorem claim5_design_marker_ignored :
    (convertUsptoPftapsDataToJs JSVal.vNull
        "PATN\r\nPNO  99\r\nDCLM\r\nThe ornamental design for a widget.\r\n").map
      (fun r => r.type) = [JSVal.vStr "utility"]
    ∧ (pfLines "PNO  99\r\nDCLM\r\nThe ornamental design for a widget.\r\n").contains "DCLM"
      = true :=
  ⟨rfl, rfl⟩

/-- Claim C6, counterexample: the legacy line "PNO  " (recognized prefix,
empty payload) produces an emitted record whose applicationNumber is
present with the empty string as its value. -/
theorem claim6_counterexample :
    (convertUsptoPftapsDataToJs JSVal.vNull "PATN\r\nPNO  \r\n").map
      (fun r => r.applicationNumber) = [JSVal.vStr ""] :=
  rfl

/-- Claim C6 as amended: a field can be present-but-empty — whenever the
first application-number line of a legacy section is exactly the bare
prefix "PNO  ", the extracted applicationNumber is the present empty
string (prefix-stripping keeps whatever follows the prefix, with no
non-emptiness guard). -/
theorem claim6_empty_payload_present :
    ∀ (fn : JSVal) (s : String),
      ((pfLines s).filter (fun l => jsStartsWith l "PNO  ")).head? = some "PNO  " →
      (pfFields fn s).applicationNumber = JSVal.vStr "" := by
  intro fn s h
  show tryCatchNull (pfTagField "PNO  " s) = JSVal.vStr ""
  unfold pfTagField
  rw [h]
  rfl

theorem claim6_witness :
    (pfFields JSVal.vNull "PNO  \r\n").applicationNumber = JSVal.vStr "" :=
  claim6_empty_payload_present JSVal.vNull "PNO  \r\n" rfl

/-- Claim C7: in all three dialect extractors — Version 4 on a parsed
tree, Version 2 on a parsed tree with its caller-supplied file name, and
legacy on a raw section — every field equals its own catch-to-null
lookup, so a failing lookup makes exactly that field null and leaves
every other field equal to its own lookup's result; no lookup failure
escapes the per-field extraction. -/
theorem claim7_field_lookup_independence :
    ∀ (t : JSVal) (fn : JSVal) (s : String) (f : PField),
      (getField (v4Fields t) f = tryCatchNull (v4Lookup t f))
      ∧ (exOk (v4Lookup t f) = false → getField (v4Fields t) f = JSVal.vNull)
      ∧ (getField (v2Fields fn t) f = tryCatchNull (v2Lookup fn t f))
      ∧ (exOk (v2Lookup fn t f) = false → getField (v2Fields fn t) f = JSVal.vNull)
      ∧ (getField (pfFields fn s) f = tryCatchNull (pfLookup fn s f))
      ∧ (exOk (pfLookup fn s f) = false → getField (pfFields fn s) f = JSVal.vNull) := by
  intro t fn s f
  refine ⟨v4_field_eq t f, fun he => ?_, v2_field_eq fn t f, fun he => ?_,
          pf_field_eq fn s f, fun he => ?_⟩
  · rw [v4_field_eq t f]
    cases hv : v4Lookup t f with
    | ok v => rw [hv] at he; simp [exOk] at he
    | error e => rfl
  · rw [v2_field_eq fn t f]
    cases hv : v2Lookup fn t f with
    | ok v => rw [hv] at he; simp [exOk] at he
    | error e => rfl
  · rw [pf_field_eq fn s f]
    cases hv : pfLookup fn s f with
    | ok v => rw [hv] at he; simp [exOk] at he
    | error e => rfl

theorem claim7_witness :
    getField (v4Fields JSVal.vNull) PField.applicationNumber = JSVal.vNull
    ∧ getField (v2Fields JSVal.vNull JSVal.vNull) PField.applicationNumber = JSVal.vNull
    ∧ getField (pfFields JSVal.vNull "") PField.applicationNumber = JSVal.vNull :=
  ⟨(claim7_field_lookup_independence JSVal.vNull JSVal.vNull "" PField.applicationNumber).2.1 rfl,
   (claim7_field_lookup_independence JSVal.vNull JSVal.vNull ""
      PField.applicationNumber).2.2.2.1 rfl,
   (claim7_field_lookup_independence JSVal.vNull JSVal.vNull ""
      PField.applicationNumber).2.2.2.2.2 rfl⟩

/-- Claim C8: each converter emits records in section order with no
reordering and no deduplication — the legacy pass is exactly an in-order
filterMap over its sections (and its output embeds, in order, into the
per-section decisions), and each XML pass is exactly the in-order
effectful map of its per-section step over the matched sections. -/
theorem claim8_source_order_emission :
    (∀ (fn : JSVal) (blob : String),
        convertUsptoPftapsDataToJs fn blob = (pftapsSections blob).filterMap (pfEmit fn))
    ∧ (∀ (fn : JSVal) (blob : String),
        List.Sublist ((convertUsptoPftapsDataToJs fn blob).map some)
          ((pftapsSections blob).map (pfEmit fn)))
    ∧ (∀ (parse : String → Except Unit JSVal) (blob : String) (secs : List String),
        v4SectionsM blob = some secs →
        convertUsptoVersion4XmlDataToJs parse blob = mapME (v4EmitE parse) secs)
    ∧ (∀ (parse : String → Except Unit JSVal) (fn : JSVal) (blob : String)
          (secs : List String),
        v2SectionsM blob = some secs →
        convertUsptoVersion2XmlDataToJs parse fn blob
          = Except.map (List.filterMap id) (mapME (v2EmitE parse fn) secs)) := by
  refine ⟨?_, ?_, ?_, ?_⟩
  · intro fn blob
    simpa using pfLoop_eq fn (pftapsSections blob) []
  · intro fn blob
    have h : convertUsptoPftapsDataToJs fn blob = (pftapsSections blob).filterMap (pfEmit fn) := by
      simpa using pfLoop_eq fn (pftapsSections blob) []
    rw [h]
    exact filterMap_map_some_sublist (pfEmit fn) (pftapsSections blob)
  · intro parse blob secs h
    unfold convertUsptoVersion4XmlDataToJs
    rw [h]
    show v4Loop parse secs [] = _
    rw [v4Loop_eq parse secs []]
    cases hm : mapME (v4EmitE parse) secs <;> simp [Except.map]
  · intro parse fn blob secs h
    unfold convertUsptoVersion2XmlDataToJs
    rw [h]
    show v2Loop parse fn secs [] = _
    rw [v2Loop_eq parse fn secs []]
    cases hm : mapME (v2EmitE parse fn) secs <;> simp [Except.map]

theorem claim8_witness :
    convertUsptoVersion4XmlDataToJs (fun _ => Except.error ())
        "<us-patent-grant a></us-patent-grant>"
      = mapME (v4EmitE (fun _ => Except.error ())) ["<us-patent-grant a></us-patent-grant>"] :=
  claim8_source_order_emission.2.2.1 (fun _ => Except.error ())
    "<us-patent-grant a></us-patent-grant>" ["<us-patent-grant a></us-patent-grant>"] rfl

/-- Claim C9: the Version 2 extractor reads inventionId from exactly the
same chained path as inventionTitle, so the two fields of any extracted
(and any emitted) record are equal — present together with the same
value, or absent together. -/
theorem claim9_invention_id_copies_title :
    (∀ (fn t : JSVal), (v2Fields fn t).inventionId = (v2Fields fn t).inventionTitle)
    ∧ (∀ (fn t : JSVal) (r : PatentData),
        v2Emit fn t = some r → r.inventionId = r.inventionTitle) := by
  constructor
  · intro fn t; rfl
  · intro fn t r h
    unfold v2Emit at h
    split at h
    · simp at h
    · injection h with h2
      subst h2
      rfl

theorem claim9_witness :
    (toSchema (v2Fields JSVal.vNull JSVal.vNull)).inventionId
      = (toSchema (v2Fields JSVal.vNull JSVal.vNull)).inventionTitle :=
  claim9_invention_id_copies_title.2 JSVal.vNull JSVal.vNull
    (toSchema (v2Fields JSVal.vNull JSVal.vNull)) rfl

/-- Claim C10: the legacy extractor reads inventionId with the very same
first-ISD-line lookup as datePublished, so the two fields of any
extracted (and any emitted) record are equal. -/
theorem claim10_invention_id_is_isd_line :
    (∀ (fn : JSVal) (s : String),
        (pfFields fn s).inventionId = tryCatchNull (pfTagField "ISD  " s)
        ∧ (pfFields fn s).inventionId = (pfFields fn s).datePublished)
    ∧ (∀ (fn : JSVal) (s : String) (r : PatentData),
        pfEmit fn s = some r → r.inventionId = r.datePublished) := by
  constructor
  · intro fn s; exact ⟨rfl, rfl⟩
  · intro fn s r h
    unfold pfEmit at h
    split at h
    · simp at h
    · injection h with h2
      subst h2
      rfl

theorem claim10_witness :
    (toSchema (pfFields JSVal.vNull "")).inventionId
      = (toSchema (pfFields JSVal.vNull "")).datePublished :=
  claim10_invention_id_is_isd_line.2 JSVal.vNull "" (toSchema (pfFields JSVal.vNull "")) rfl
